import Mathlib

/-!
Verification of the opendeck-pulse-mixer plugin runtime.

The development shallowly embeds the two Python sources of the repository:

* `src/plugin.py` — the generic Stream Deck plugin runtime: the event
  router (`StreamDeck.on_message`), the instance store
  (`SDPlugin.setSettings` / `SDPlugin.removeSettings`), the polling loop
  with its per-context error counter (`StreamDeck.image_loop`), and the
  outbound command builders (`SDPlugin.SetState`, ...).
* `src/main.py` — the PulseAudio domain plugin: the per-context refresh
  hook (`PulsePlugin.on_loop`) and the settings-retrieval path
  (`PulsePlugin.get_settings`).

Modelling conventions:

* JSON-like values are the inductive `JValue`; objects carry their fields
  as the mutually inductive list `JFields` (keys are strings, as produced
  by JSON parsing; field lists have pairwise distinct keys).
* Python dictionaries held on the plugin objects (`ctxSettings`,
  `ctxInfo`, `errors`, `last_devices`, `last_volumes`) are association
  lists with lookup/insert/delete helpers (`dlookup`, `dinsert`,
  `derase`); insertion keeps keys unique, on which `derase` agrees with
  Python's `del`.
* A Python exception is a `PyExc` value; code that can raise returns
  `Except`.  Where an exception can leave earlier assignments in place,
  the error value carries the state at raise time.
* Outbound websocket commands are `Cmd` values recording the message and
  its arguments; image rendering (`show_sink_info`) is excluded domain
  logic, so a `setImage` command records the volume/nickname inputs of
  the rendered blob instead of its pixels.
-/

namespace PulseMixer

/- JSON-like value, the shape of every parsed websocket frame and of the
stored per-context settings.  Arrays are omitted: no code path embedded
here distinguishes an array from any other non-mapping value. -/
mutual

inductive JValue where
  | null
  | bool (b : Bool)
  | num (n : Int)
  | str (s : String)
  | obj (fields : JFields)

inductive JFields where
  | fnil
  | fcons (key : String) (value : JValue) (tail : JFields)

end

mutual

def JValue.beq : JValue → JValue → Bool
  | .null, .null => true
  | .bool a, .bool b => a == b
  | .num a, .num b => a == b
  | .str a, .str b => a == b
  | .obj a, .obj b => JFields.beq a b
  | _, _ => false

def JFields.beq : JFields → JFields → Bool
  | .fnil, .fnil => true
  | .fcons k v t, .fcons k' v' t' => k == k' && JValue.beq v v' && JFields.beq t t'
  | _, _ => false

end

mutual

theorem JValue.beq_iff : ∀ a b : JValue, JValue.beq a b = true ↔ a = b
  | .null, .null => by simp [JValue.beq]
  | .bool _, .bool _ => by simp [JValue.beq]
  | .num _, .num _ => by simp [JValue.beq]
  | .str _, .str _ => by simp [JValue.beq]
  | .obj a, .obj b => by simp [JValue.beq, JFields.fieldsBeq_iff a b]
  | .null, .bool _ => by simp [JValue.beq]
  | .null, .num _ => by simp [JValue.beq]
  | .null, .str _ => by simp [JValue.beq]
  | .null, .obj _ => by simp [JValue.beq]
  | .bool _, .null => by simp [JValue.beq]
  | .bool _, .num _ => by simp [JValue.beq]
  | .bool _, .str _ => by simp [JValue.beq]
  | .bool _, .obj _ => by simp [JValue.beq]
  | .num _, .null => by simp [JValue.beq]
  | .num _, .bool _ => by simp [JValue.beq]
  | .num _, .str _ => by simp [JValue.beq]
  | .num _, .obj _ => by simp [JValue.beq]
  | .str _, .null => by simp [JValue.beq]
  | .str _, .bool _ => by simp [JValue.beq]
  | .str _, .num _ => by simp [JValue.beq]
  | .str _, .obj _ => by simp [JValue.beq]
  | .obj _, .null => by simp [JValue.beq]
  | .obj _, .bool _ => by simp [JValue.beq]
  | .obj _, .num _ => by simp [JValue.beq]
  | .obj _, .str _ => by simp [JValue.beq]

theorem JFields.fieldsBeq_iff : ∀ a b : JFields, JFields.beq a b = true ↔ a = b
  | .fnil, .fnil => by simp [JFields.beq]
  | .fcons _ v t, .fcons _ v' t' => by
      simp [JFields.beq, JValue.beq_iff v v', JFields.fieldsBeq_iff t t', and_assoc]
  | .fnil, .fcons _ _ _ => by simp [JFields.beq]
  | .fcons _ _ _, .fnil => by simp [JFields.beq]

end

instance : DecidableEq JValue := fun a b => decidable_of_iff _ (JValue.beq_iff a b)

instance : DecidableEq JFields := fun a b => decidable_of_iff _ (JFields.fieldsBeq_iff a b)

/-- Helper to build a `JValue.obj` from a plain list of fields. -/
def JFields.ofList : List (String × JValue) → JFields
  | [] => .fnil
  | (k, v) :: rest => .fcons k v (JFields.ofList rest)

/-- Field lookup inside a JSON object, the meaning of `d[k]` / `d.get(k)`
on a parsed mapping. -/
def JFields.lookup : JFields → String → Option JValue
  | .fnil, _ => none
  | .fcons k v t, key => if k = key then some v else t.lookup key

/-- Association-list lookup: `d[k]` / `d.get(k)` / `k in d` for the
dictionaries the plugin objects hold. -/
def dlookup {α : Type} : List (JValue × α) → JValue → Option α
  | [], _ => none
  | (k, v) :: rest, key => if k = key then some v else dlookup rest key

/-- Association-list insertion, the meaning of `d[k] = v`: replaces the
value of an existing key and otherwise appends the new entry. -/
def dinsert {α : Type} : List (JValue × α) → JValue → α → List (JValue × α)
  | [], key, v => [(key, v)]
  | (k, w) :: rest, key, v =>
      if k = key then (k, v) :: rest else (k, w) :: dinsert rest key v

/-- Association-list deletion, the meaning of `del d[k]` on maps whose
keys are pairwise distinct (every map built by `dinsert` is). -/
def derase {α : Type} : List (JValue × α) → JValue → List (JValue × α)
  | [], _ => []
  | (k, w) :: rest, key =>
      if k = key then derase rest key else (k, w) :: derase rest key

@[simp]
theorem dlookup_dinsert_self {α : Type} (m : List (JValue × α)) (k : JValue) (v : α) :
    dlookup (dinsert m k v) k = some v := by
  induction m with
  | nil => simp [dinsert, dlookup]
  | cons p rest ih =>
      obtain ⟨k', w⟩ := p
      by_cases h : k' = k <;> simp [dinsert, dlookup, h, ih]

theorem dlookup_dinsert_ne {α : Type} (m : List (JValue × α)) (k k' : JValue) (v : α)
    (h : k' ≠ k) : dlookup (dinsert m k v) k' = dlookup m k' := by
  induction m with
  | nil => simp [dinsert, dlookup, Ne.symm h]
  | cons p rest ih =>
      obtain ⟨k0, w⟩ := p
      by_cases h0 : k0 = k
      · subst h0
        simp [dinsert, dlookup, Ne.symm h]
      · simp [dinsert, dlookup, h0, ih]

@[simp]
theorem dlookup_derase_self {α : Type} (m : List (JValue × α)) (k : JValue) :
    dlookup (derase m k) k = none := by
  induction m with
  | nil => simp [derase, dlookup]
  | cons p rest ih =>
      obtain ⟨k0, w⟩ := p
      by_cases h0 : k0 = k <;> simp [derase, dlookup, h0, ih]

theorem dlookup_derase_ne {α : Type} (m : List (JValue × α)) (k k' : JValue)
    (h : k' ≠ k) : dlookup (derase m k) k' = dlookup m k' := by
  induction m with
  | nil => simp [derase]
  | cons p rest ih =>
      obtain ⟨k0, w⟩ := p
      by_cases h0 : k0 = k
      · subst h0
        simp [derase, dlookup, Ne.symm h, ih]
      · simp [derase, dlookup, h0, ih]

/-- Removal of the first occurrence of an element from a list, the
meaning of `l.pop(l.index(x))`. -/
def eraseFirst {α : Type} [DecidableEq α] : List α → α → List α
  | [], _ => []
  | x :: xs, a => if x = a then xs else x :: eraseFirst xs a

theorem mem_eraseFirst_of_ne {α : Type} [DecidableEq α] (l : List α) (a x : α)
    (h : x ≠ a) : x ∈ eraseFirst l a ↔ x ∈ l := by
  induction l with
  | nil => simp [eraseFirst]
  | cons y ys ih =>
      by_cases h0 : y = a
      · subst h0
        simp [eraseFirst, h, ih]
      · simp [eraseFirst, h0, ih]

theorem not_mem_eraseFirst_self {α : Type} [DecidableEq α] (l : List α) (a : α)
    (h : l.Nodup) : a ∉ eraseFirst l a := by
  induction l with
  | nil => simp [eraseFirst]
  | cons y ys ih =>
      rw [List.nodup_cons] at h
      by_cases h0 : y = a
      · subst h0
        simpa [eraseFirst] using h.1
      · simp [eraseFirst, h0, Ne.symm h0, ih h.2]

theorem eraseFirst_sublist {α : Type} [DecidableEq α] (l : List α) (a : α) :
    (eraseFirst l a).Sublist l := by
  induction l with
  | nil => simp [eraseFirst]
  | cons y ys ih =>
      by_cases h0 : y = a
      · simpa [eraseFirst, h0] using List.sublist_cons_self y ys
      · simpa [eraseFirst, h0] using ih.cons₂ y

/-- Number of occurrences of an element in a list. -/
def countOcc {α : Type} [DecidableEq α] : List α → α → Nat
  | [], _ => 0
  | x :: xs, a => (if x = a then 1 else 0) + countOcc xs a

theorem countOcc_eq_zero {α : Type} [DecidableEq α] (l : List α) (a : α)
    (h : a ∉ l) : countOcc l a = 0 := by
  induction l with
  | nil => rfl
  | cons y ys ih =>
      simp only [List.mem_cons, not_or] at h
      simp [countOcc, Ne.symm h.1, ih h.2]

theorem countOcc_eq_one {α : Type} [DecidableEq α] (l : List α) (a : α)
    (hnd : l.Nodup) (hm : a ∈ l) : countOcc l a = 1 := by
  induction l with
  | nil => simp at hm
  | cons y ys ih =>
      rw [List.nodup_cons] at hnd
      rcases List.mem_cons.mp hm with h | h
      · subst h
        simp [countOcc, countOcc_eq_zero ys a hnd.1]
      · have hya : y ≠ a := fun hh => hnd.1 (hh ▸ h)
        simp [countOcc, hya, ih hnd.2 h]

theorem countOcc_append {α : Type} [DecidableEq α] (l l' : List α) (a : α) :
    countOcc (l ++ l') a = countOcc l a + countOcc l' a := by
  induction l with
  | nil => simp [countOcc]
  | cons y ys ih => by_cases h : y = a <;> simp [countOcc, h, ih] <;> omega

/-- Python exception kinds raised by the embedded code paths. -/
inductive PyExc where
  | keyError
  | valueError
  | typeError
  | indexError
  | attributeError
  | jsonDecodeError
deriving DecidableEq

/-- Outbound websocket command, as built by the `SDPlugin` command
builders and by `PulsePlugin.on_loop`.  A `setImage` records the inputs
of the rendered image blob (image rendering is excluded domain logic). -/
inductive Cmd where
  | setImage (context : JValue) (volume : Int) (nickname : String)
  | setState (context : JValue) (stateIdx : Int)
  | showAlert (context : JValue)
deriving DecidableEq

/-- Per-context layout metadata, the dictionary built on
`src/plugin.py` lines 186-187 from the appear payload. -/
structure CtxInfo where
  coordinates : JValue
  controller : JValue
  state : JValue
  isInMultiAction : JValue
  action : JValue
deriving DecidableEq

/-- Instance-store state of `SDPlugin`: the active `contexts` list and
the `ctxSettings` / `ctxInfo` dictionaries (`src/plugin.py` 159-161). -/
structure SDState where
  contexts : List JValue
  ctxSettings : List (JValue × JValue)
  ctxInfo : List (JValue × CtxInfo)
deriving DecidableEq

def initialSD : SDState := ⟨[], [], []⟩

/-- Subscript access `v[k]`: key lookup on a mapping (`KeyError` when
missing), `TypeError` on a non-mapping value. -/
def jget (v : JValue) (k : String) : Except PyExc JValue :=
  match v with
  | .obj fields =>
      match fields.lookup k with
      | some x => .ok x
      | none => .error .keyError
  | _ => .error .typeError

/-- Embedding of `SDPlugin.setSettings` (`src/plugin.py` 176-187): add
the payload's context to the active list if absent, then assign its
settings and its info dictionary.  A raise part-way (a missing payload
field) leaves the assignments already made in place; the error value
carries that intermediate state. -/
def setSettings (payload : JValue) (s : SDState) : Except (PyExc × SDState) SDState :=
  match jget payload "context" with
  | .error e => .error (e, s)
  | .ok context =>
    let s1 := if context ∈ s.contexts then s
              else { s with contexts := s.contexts ++ [context] }
    match jget payload "payload" with
    | .error e => .error (e, s1)
    | .ok inner =>
      match jget inner "settings" with
      | .error e => .error (e, s1)
      | .ok sv =>
        let s2 := { s1 with ctxSettings := dinsert s1.ctxSettings context sv }
        match jget inner "coordinates", jget inner "controller", jget inner "state",
              jget inner "isInMultiAction", jget payload "action" with
        | .ok coordinates, .ok controller, .ok stv, .ok multi, .ok action =>
            .ok { s2 with
                  ctxInfo := dinsert s2.ctxInfo context ⟨coordinates, controller, stv, multi, action⟩ }
        | .error e, _, _, _, _ => .error (e, s2)
        | _, .error e, _, _, _ => .error (e, s2)
        | _, _, .error e, _, _ => .error (e, s2)
        | _, _, _, .error e, _ => .error (e, s2)
        | _, _, _, _, .error e => .error (e, s2)

/-- Embedding of `SDPlugin.removeSettings` (`src/plugin.py` 189-199):
`contexts.pop(contexts.index(context))` raises `ValueError` when the
context is not active (before any mutation); then the two `del`
statements raise `KeyError` when an entry is missing, after the earlier
removals already happened. -/
def removeSettings (payload : JValue) (s : SDState) : Except (PyExc × SDState) SDState :=
  match jget payload "context" with
  | .error e => .error (e, s)
  | .ok context =>
    if context ∈ s.contexts then
      let s1 := { s with contexts := eraseFirst s.contexts context }
      match dlookup s1.ctxSettings context with
      | none => .error (.keyError, s1)
      | some _ =>
        let s2 := { s1 with ctxSettings := derase s1.ctxSettings context }
        match dlookup s2.ctxInfo context with
        | none => .error (.keyError, s2)
        | some _ => .ok { s2 with ctxInfo := derase s2.ctxInfo context }
    else .error (.valueError, s)

/-- Instance-store effect of `PulsePlugin.get_settings`
(`src/main.py` 194-195): a context with no `ctxSettings` entry gets an
empty one.  The rest of the function reads the sink list and sends one
property-inspector message; it mutates no further instance-store state. -/
def getSettingsStore (s : SDState) (context : JValue) : SDState :=
  if (dlookup s.ctxSettings context).isSome then s
  else { s with ctxSettings := dinsert s.ctxSettings context (.obj .fnil) }

theorem getSettingsStore_present (s : SDState) (c : JValue)
    (h : (dlookup s.ctxSettings c).isSome) : getSettingsStore s c = s := by
  unfold getSettingsStore
  rw [if_pos h]

theorem getSettingsStore_absent (s : SDState) (c : JValue)
    (h : ¬ (dlookup s.ctxSettings c).isSome) :
    getSettingsStore s c = { s with ctxSettings := dinsert s.ctxSettings c (.obj .fnil) } := by
  unfold getSettingsStore
  rw [if_neg h]

/-- Fields an appear-style payload must carry for `setSettings` to run to
completion: the context, the settings value and the five info fields
read on `src/plugin.py` lines 182-187. -/
def appearFields (payload : JValue) : Option (JValue × JValue × CtxInfo) :=
  match jget payload "context", jget payload "payload", jget payload "action" with
  | .ok context, .ok inner, .ok action =>
      match jget inner "settings", jget inner "coordinates", jget inner "controller",
            jget inner "state", jget inner "isInMultiAction" with
      | .ok sv, .ok coordinates, .ok controller, .ok stv, .ok multi =>
          some (context, sv, ⟨coordinates, controller, stv, multi, action⟩)
      | _, _, _, _, _ => none
  | _, _, _ => none

theorem setSettings_of_appearFields (payload : JValue) (s : SDState)
    (c sv : JValue) (info : CtxInfo)
    (h : appearFields payload = some (c, sv, info)) :
    setSettings payload s = .ok
      { contexts := if c ∈ s.contexts then s.contexts else s.contexts ++ [c],
        ctxSettings := dinsert s.ctxSettings c sv,
        ctxInfo := dinsert s.ctxInfo c info } := by
  rcases h1 : jget payload "context" with e1 | ctx
  · simp [appearFields, h1] at h
  rcases h2 : jget payload "payload" with e2 | inner
  · simp [appearFields, h1, h2] at h
  rcases h3 : jget payload "action" with e3 | action
  · simp [appearFields, h1, h2, h3] at h
  rcases h4 : jget inner "settings" with e4 | sv'
  · simp [appearFields, h1, h2, h3, h4] at h
  rcases h5 : jget inner "coordinates" with e5 | coords
  · simp [appearFields, h1, h2, h3, h4, h5] at h
  rcases h6 : jget inner "controller" with e6 | controller
  · simp [appearFields, h1, h2, h3, h4, h5, h6] at h
  rcases h7 : jget inner "state" with e7 | stv
  · simp [appearFields, h1, h2, h3, h4, h5, h6, h7] at h
  rcases h8 : jget inner "isInMultiAction" with e8 | multi
  · simp [appearFields, h1, h2, h3, h4, h5, h6, h7, h8] at h
  simp only [appearFields, h1, h2, h3, h4, h5, h6, h7, h8, Option.some.injEq,
    Prod.mk.injEq] at h
  obtain ⟨rfl, rfl, rfl⟩ := h
  by_cases hmem : ctx ∈ s.contexts <;>
    simp [setSettings, h1, h2, h3, h4, h5, h6, h7, h8, hmem]

/-- State left behind by a call that may raise: the final state on
success, the state at raise time otherwise (the caller catches the
exception and continues with that state). -/
def stateOfE : Except (PyExc × SDState) SDState → SDState
  | .ok s => s
  | .error (_, s) => s

/-- Instance-store states reachable through appear/settings-received
upserts carrying the protocol's payload fields, disappear removals
(successful or raising), and the domain settings-retrieval path.  An
appear payload missing one of its fields makes `setSettings` raise
part-way, leaving a half-created context behind (see
`appear_upsert_not_atomic_bug`); such executions are deliberately not
covered here — this predicate describes the protocol-conformant runs
that the upsert and removal postconditions are stated over. -/
inductive Reachable : SDState → Prop where
  | init : Reachable initialSD
  | appear (s : SDState) (payload : JValue) (h : Reachable s)
      (hwf : (appearFields payload).isSome) :
      Reachable (stateOfE (setSettings payload s))
  | disappear (s : SDState) (payload : JValue) (h : Reachable s) :
      Reachable (stateOfE (removeSettings payload s))
  | settingsRetrieval (s : SDState) (c : JValue) (h : Reachable s) :
      Reachable (getSettingsStore s c)

/-- Inductive invariant of the instance store: the active list has no
duplicates, membership in it coincides with having a `ctxInfo` entry,
and every active context also has a `ctxSettings` entry. -/
def SDInv (s : SDState) : Prop :=
  s.contexts.Nodup ∧
  (∀ c, c ∈ s.contexts ↔ (dlookup s.ctxInfo c).isSome) ∧
  (∀ c, c ∈ s.contexts → (dlookup s.ctxSettings c).isSome)

theorem reachable_inv (s : SDState) (hr : Reachable s) : SDInv s := by
  induction hr with
  | init =>
      refine ⟨List.nodup_nil, ?_, ?_⟩ <;> intro c <;> simp [initialSD, dlookup]
  | appear s payload h hwf ih =>
      obtain ⟨⟨c, sv, info⟩, hp⟩ := Option.isSome_iff_exists.mp hwf
      rw [setSettings_of_appearFields payload s c sv info hp]
      obtain ⟨ihn, ihi, ihs⟩ := ih
      simp only [stateOfE]
      refine ⟨?_, ?_, ?_⟩
      · by_cases hc : c ∈ s.contexts
        · simpa [hc] using ihn
        · simp [hc, List.nodup_append, ihn]
      · intro c'
        by_cases hcc : c' = c
        · rw [hcc]
          by_cases hc : c ∈ s.contexts <;> simp [hc]
        · rw [show (dlookup (dinsert s.ctxInfo c info) c') = dlookup s.ctxInfo c' from
            dlookup_dinsert_ne _ _ _ _ hcc]
          by_cases hc : c ∈ s.contexts <;> simp [hc, hcc, ihi c']
      · intro c' hc'
        by_cases hcc : c' = c
        · rw [hcc]
          simp
        · rw [show (dlookup (dinsert s.ctxSettings c sv) c') = dlookup s.ctxSettings c' from
            dlookup_dinsert_ne _ _ _ _ hcc]
          apply ihs
          by_cases hc : c ∈ s.contexts
          · simpa [hc] using hc'
          · simpa [hc, hcc] using hc'
  | disappear s payload h ih =>
      obtain ⟨ihn, ihi, ihs⟩ := ih
      rcases h1 : jget payload "context" with e1 | ctx
      · simpa [removeSettings, h1, stateOfE] using ⟨ihn, ihi, ihs⟩
      by_cases hmem : ctx ∈ s.contexts
      · obtain ⟨v, hv⟩ := Option.isSome_iff_exists.mp (ihs ctx hmem)
        obtain ⟨w, hw⟩ := Option.isSome_iff_exists.mp ((ihi ctx).mp hmem)
        simp only [removeSettings, h1, hmem, if_true, hv, hw, stateOfE]
        refine ⟨(eraseFirst_sublist _ _).nodup ihn, ?_, ?_⟩
        · intro c'
          by_cases hcc : c' = ctx
          · subst hcc
            simp [not_mem_eraseFirst_self s.contexts c' ihn]
          · rw [mem_eraseFirst_of_ne _ _ _ hcc,
              dlookup_derase_ne _ _ _ hcc]
            exact ihi c'
        · intro c' hc'
          by_cases hcc : c' = ctx
          · exact absurd (hcc ▸ hc') (not_mem_eraseFirst_self s.contexts ctx ihn)
          · rw [dlookup_derase_ne _ _ _ hcc]
            exact ihs c' ((mem_eraseFirst_of_ne _ _ _ hcc).mp hc')
      · simpa [removeSettings, h1, hmem, stateOfE] using ⟨ihn, ihi, ihs⟩
  | settingsRetrieval s c h ih =>
      obtain ⟨ihn, ihi, ihs⟩ := ih
      by_cases hc : (dlookup s.ctxSettings c).isSome
      · rw [getSettingsStore_present s c hc]
        exact ⟨ihn, ihi, ihs⟩
      · rw [getSettingsStore_absent s c hc]
        refine ⟨ihn, ihi, ?_⟩
        intro c' hc'
        by_cases hcc : c' = c
        · rw [hcc]
          simp
        · rw [show (dlookup (dinsert s.ctxSettings c (.obj .fnil)) c') = dlookup s.ctxSettings c' from
            dlookup_dinsert_ne _ _ _ _ hcc]
          exact ihs c' hc'

/-- Upper-casing of one character, the effect of Python's `str.upper()`
on the single (ASCII) character sliced out of an event name. -/
def asciiUpper (c : Char) : Char :=
  if 'a' ≤ c ∧ c ≤ 'z' then Char.ofNat (c.toNat - 32) else c

/-- Handler-key computation of `StreamDeck.on_message`
(`src/plugin.py` line 131): `on` followed by the event name with its
first character upper-cased.  Only called with a nonempty event name;
an empty one raises `IndexError` on line 131 before the name is built. -/
def methodNameFor (e : String) : String :=
  match e.data with
  | [] => "on"
  | c :: cs => ⟨'o' :: 'n' :: asciiUpper c :: cs⟩

/-- Attribute names of the plugin object that `getattr` can see
(`src/plugin.py` line 133).  The list covers the attributes of
`SDPlugin` together with the extra attributes of `PulsePlugin`
(`src/main.py`), which override some of them but introduce no new name
beginning with `on`; double-underscore attributes can never equal a
computed key, which always starts with `on`.  Every entry whose name the
router can compute is a bound method, hence truthy at line 134. -/
def sdPluginAttrs : List String :=
  ["sd", "contexts", "ctxSettings", "ctxInfo", "settings", "logger", "run",
   "on_loop", "setSettings", "removeSettings",
   "GetSettings", "GetGlobalSettings", "GetResources", "GetSecrets",
   "LogMessage", "OpenUrl", "SendToPropertyInspector", "SetGlobalSettings",
   "SetSettings", "SetFeedback", "SetFeedbackLayout", "SetImage",
   "SetResources", "SetState", "SetTitle", "SetTriggerDescription",
   "ShowAlert", "ShowOk", "SwitchToProfile",
   "onDidReceiveSettings", "onDidReceiveGlobalSettings", "onWillAppear",
   "onWillDisappear", "onSendToPlugin", "onApplicationDidLaunch",
   "onApplicationDidTerminate", "onDeviceDidChange", "onDeviceDidConnect",
   "onDeviceDidDisconnect", "onDialDown", "onDialRotate", "onDialUp",
   "onDidReceiveDeepLink", "onDidReceivePropertyInspectorMessage",
   "onDidReceiveResources", "onDidReceiveSecrets", "onKeyDown", "onKeyUp",
   "onPropertyInspectorDidAppear", "onPropertyInspectorDidDisappear",
   "onSystemDidWakeUp", "onTitleParametersDidChange", "onTouchTap",
   "pulse", "pulse_lock", "sinks", "last_devices", "last_volumes",
   "get_sink", "get_sink_from_name", "get_volume", "set_volume",
   "refresh", "toggle_mute", "get_settings"]

/-- Modelled from the spec: the fixed table of recognized event handlers
of sections 4.3 and 6 — one handler per inbound event kind of the
protocol, and nothing else.  Stated for comparison against the source's
attribute-based resolution. -/
def recognizedEventHandlers : List String :=
  ["onDidReceiveSettings", "onDidReceiveGlobalSettings", "onWillAppear",
   "onWillDisappear", "onSendToPlugin", "onApplicationDidLaunch",
   "onApplicationDidTerminate", "onDeviceDidChange", "onDeviceDidConnect",
   "onDeviceDidDisconnect", "onDialDown", "onDialRotate", "onDialUp",
   "onDidReceiveDeepLink", "onDidReceivePropertyInspectorMessage",
   "onDidReceiveResources", "onDidReceiveSecrets", "onKeyDown", "onKeyUp",
   "onPropertyInspectorDidAppear", "onPropertyInspectorDidDisappear",
   "onSystemDidWakeUp", "onTitleParametersDidChange", "onTouchTap"]

/-- What the router does with a (nonempty) event name. -/
inductive RouteAction where
  | invokeNoArg (method : String)
  | invokeWithPayload (method : String)
  | logMiss (method : String)
deriving DecidableEq

/-- Resolution step of `StreamDeck.on_message` (`src/plugin.py`
131-141): build the handler key, look it up among the plugin's
attributes, special-case `systemDidWakeUp` (invoked with no arguments),
otherwise pass the parsed payload; a missing attribute is only logged. -/
def resolveEvent (e : String) : RouteAction :=
  let m := methodNameFor e
  if m ∈ sdPluginAttrs then
    if e = "systemDidWakeUp" then .invokeNoArg m else .invokeWithPayload m
  else .logMiss m

/-- Outcome of one `on_message` call; every constructor corresponds to a
return, never to a propagated exception (lines 143-145 catch all). -/
inductive MsgOutcome where
  | parseFailure
  | notDict
  | noHandler (method : String)
  | badEvent (e : PyExc)
  | handled (method : String)
  | handlerRaised (method : String) (e : PyExc)
deriving DecidableEq

/-- Does the outcome correspond to a dispatched handler invocation? -/
def invokedOutcome : MsgOutcome → Bool
  | .handled _ => true
  | .handlerRaised _ _ => true
  | _ => false

/-- Dispatch to the framework's built-in handlers (`src/plugin.py`
291-364): the appear/settings-received handlers call `setSettings`, the
disappear handler calls `removeSettings`, every other handler body is
`pass`.  A raise inside the handler is caught by `on_message`, which
continues with the state at raise time. -/
def dispatchTo (s : SDState) (m : String) (parsed : JValue) : SDState × MsgOutcome :=
  if m = "onWillAppear" ∨ m = "onDidReceiveSettings" then
    match setSettings parsed s with
    | .ok s' => (s', .handled m)
    | .error (e, s') => (s', .handlerRaised m e)
  else if m = "onWillDisappear" then
    match removeSettings parsed s with
    | .ok s' => (s', .handled m)
    | .error (e, s') => (s', .handlerRaised m e)
  else (s, .handled m)

/-- Embedding of `StreamDeck.on_message` (`src/plugin.py` 107-145).  The
argument is the result of `json.loads`: `none` when parsing raised.  A
missing `event` key yields `None`, so `event[0]` raises `TypeError`; an
empty event name raises `IndexError`; a non-string event value raises on
the subscript/upper-case step as well.  All raises land in the
`except` clause, which logs and returns. -/
def onMessage (s : SDState) (frame : Option JValue) : SDState × MsgOutcome :=
  match frame with
  | none => (s, .parseFailure)
  | some parsed =>
    match parsed with
    | .obj fields =>
      match fields.lookup "event" with
      | none => (s, .badEvent .typeError)
      | some (.str e) =>
        if e = "" then (s, .badEvent .indexError)
        else
          match resolveEvent e with
          | .logMiss m => (s, .noHandler m)
          | .invokeNoArg m => (s, .handled m)
          | .invokeWithPayload m => dispatchTo s m parsed
      | some _ => (s, .badEvent .typeError)
    | _ => (s, .notDict)

/-- Failure threshold of the polling loop (`src/plugin.py` line 10). -/
def MAX_ERRORS : Nat := 5

/-- Observable events of the polling loop: refresh-hook invocations and
show-alert commands. -/
inductive Ev where
  | hookCall (context : JValue)
  | alert (context : JValue)
deriving DecidableEq

/-- Error-counter update on a failing poll (`src/plugin.py` 51-54):
initialize the context's counter to 0 if absent, then add 1. -/
def bumpErrors (errors : List (JValue × Nat)) (c : JValue) : List (JValue × Nat) :=
  dinsert errors c ((dlookup errors c).getD 0 + 1)

/-- One tick of `StreamDeck.image_loop` (`src/plugin.py` 47-61): poll
every active context in order; on a hook exception bump the counter and,
at the threshold, emit the alert, report the breaker tripped and `break`
out of the tick.  Returns the updated error map, whether the breaker
tripped, and the event trace of the tick. -/
def tickAux (fail : JValue → Bool) :
    List JValue → List (JValue × Nat) → List (JValue × Nat) × Bool × List Ev
  | [], errors => (errors, false, [])
  | c :: rest, errors =>
    if fail c then
      let errors' := bumpErrors errors c
      if MAX_ERRORS ≤ (dlookup errors' c).getD 0 then
        (errors', true, [.hookCall c, .alert c])
      else
        let r := tickAux fail rest errors'
        (r.1, r.2.1, .hookCall c :: r.2.2)
    else
      let r := tickAux fail rest errors
      (r.1, r.2.1, .hookCall c :: r.2.2)

/-- Loop-relevant state of the `StreamDeck` object: the `running` flag
and the `errors` counter map (`src/plugin.py` 38-40). -/
structure LoopSt where
  running : Bool
  errors : List (JValue × Nat)
deriving DecidableEq

/-- The `while self.running` loop of `StreamDeck.image_loop`, run for
`fuel` iterations at most; `fail t c` tells whether the refresh hook for
context `c` raises on tick number `t`.  The breaker clears `running`, so
the next iteration's condition check ends the loop. -/
def runLoop (fail : Nat → JValue → Bool) (cs : List JValue) :
    Nat → Nat → LoopSt → LoopSt × List Ev
  | 0, _, s => (s, [])
  | fuel + 1, t, s =>
    if s.running then
      let r := tickAux (fail t) cs s.errors
      let rest := runLoop fail cs fuel (t + 1) ⟨!r.2.1, r.1⟩
      (rest.1, r.2.2 ++ rest.2)
    else (s, [])

/-- Python truthiness of a JSON value: `None`, `False`, `0`, the empty
string and the empty mapping are falsy. -/
def truthyJ : JValue → Bool
  | .null => false
  | .bool b => b
  | .num n => n != 0
  | .str s => s != ""
  | .obj .fnil => false
  | .obj _ => true

/-- Truthiness of a `dict.get` result; a missing key yields `None`. -/
def truthyOpt : Option JValue → Bool
  | none => false
  | some v => truthyJ v

/-- Method call `v.get(k)`: key lookup on a mapping, `AttributeError`
on a non-mapping value (which has no `get`). -/
def pyGet (v : JValue) (k : String) : Except PyExc (Option JValue) :=
  match v with
  | .obj fields => .ok (fields.lookup k)
  | _ => .error .attributeError

/-- Conversion `int(q)`: truncation toward zero.  Sink volumes, floats
in the source, are modelled as rationals. -/
def pyTrunc (q : Rat) : Int := Int.tdiv q.num q.den

/-- Last dot-separated segment of a string, the meaning of
`s.split(".")[-1]` (`src/main.py` line 138). -/
def lastSegmentAux : List Char → List Char → List Char
  | [], acc => acc.reverse
  | c :: cs, acc => if c = '.' then lastSegmentAux cs [] else lastSegmentAux cs (c :: acc)

def lastSegment (s : String) : String := ⟨lastSegmentAux s.data []⟩

/-- One PulseAudio sink as read by the domain plugin: its description,
mute flag and flat volume (`sink.volume.value_flat`). -/
structure PulseSink where
  description : String
  mute : Bool
  volumeFlat : Rat
deriving DecidableEq

/-- State of the `PulsePlugin` object: the inherited instance store plus
the cached sink list and the duplicate-suppression caches
(`src/main.py` 66-69). -/
structure PulseState where
  sd : SDState
  sinks : List PulseSink
  lastDevices : List (JValue × String)
  lastVolumes : List (JValue × Int)
deriving DecidableEq

/-- Nickname computation of `src/main.py` 150-151:
`(nickname.strip() if nickname else None) or sink.description`.  A falsy
value falls back to the sink description; a truthy non-string raises
`AttributeError` at `.strip()`. -/
def nicknameOf (nick : Option JValue) (sink : PulseSink) : Except PyExc String :=
  match nick with
  | some (.str s0) => .ok (if s0.trim = "" then sink.description else s0.trim)
  | some v => if truthyJ v then .error .attributeError else .ok sink.description
  | none => .ok sink.description

/-- Tail of the `showvol` branch (`src/main.py` 148-168): apply the mute
override, warm the duplicate-suppression caches, and send one `setImage`
command exactly when the nickname or volume changed. -/
def showvolFinish (p : PulseState) (context : JValue) (sink : PulseSink)
    (nickname : String) : PulseState × List Cmd :=
  let volume0 := pyTrunc (sink.volumeFlat * 100)
  let volume := if sink.mute then 0 else volume0
  let ld := if (dlookup p.lastDevices context).isSome then p.lastDevices
            else dinsert p.lastDevices context nickname
  let lv := if (dlookup p.lastVolumes context).isSome then p.lastVolumes
            else dinsert p.lastVolumes context volume
  if dlookup ld context ≠ some nickname ∨ dlookup lv context ≠ some volume then
    ({ p with lastDevices := dinsert ld context nickname,
              lastVolumes := dinsert lv context volume },
     [.setImage context volume nickname])
  else
    ({ p with lastDevices := ld, lastVolumes := lv }, [])

/-- Embedding of the domain refresh hook `PulsePlugin.on_loop`
(`src/main.py` 127-168).  A context whose settings or info entry is
absent — or whose settings value is falsy, such as the empty dict — is
skipped (`if not settings or not info: return`); the info dictionary
built by `setSettings` always carries five keys, so a present entry is
truthy.  A missing sink is logged and skipped. -/
def on_loop (p : PulseState) (context : JValue) : Except PyExc (PulseState × List Cmd) :=
  match dlookup p.sd.ctxSettings context, dlookup p.sd.ctxInfo context with
  | some sv, some info =>
    if truthyJ sv = false then .ok (p, [])
    else
      match info.action with
      | .str actionId =>
        if lastSegment actionId = "showvol" then
          match pyGet sv "audioDevice" with
          | .error e => .error e
          | .ok device =>
            if truthyOpt device = false then .ok (p, [])
            else
              match p.sinks.find?
                  (fun sk => decide (JValue.str sk.description = device.getD .null)) with
              | none => .ok (p, [])
              | some sink =>
                match pyGet sv "deviceNickname" with
                | .error e => .error e
                | .ok nick =>
                  match nicknameOf nick sink with
                  | .error e => .error e
                  | .ok nickname => .ok (showvolFinish p context sink nickname)
        else .ok (p, [])
      | _ => .error .attributeError
  | _, _ => .ok (p, [])

/-- Embedding of the command builder `SDPlugin.SetState`
(`src/plugin.py` 258-262): validation first, then exactly one message. -/
def SetState (context : JValue) (stateIdx : Int) : Except PyExc (List Cmd) :=
  if stateIdx < 0 ∨ stateIdx > 1 then .error .valueError
  else .ok [.setState context stateIdx]

/-- Combined state of the two collaborating objects: the plugin's
instance store and the `StreamDeck`'s loop state (`running`, `errors`). -/
structure Sys where
  sd : SDState
  loopSt : LoopSt
deriving DecidableEq

/-- Disappear handling at the system level.  `removeSettings`
(`src/plugin.py` 189-199) reads and writes only the three instance-store
structures; the `errors` map lives on the `StreamDeck` object and is not
touched. -/
def sysDisappear (payload : JValue) (sys : Sys) : Sys :=
  { sys with sd := stateOfE (removeSettings payload sys.sd) }

/-- One polling tick at the system level: a no-op when `running` is
already false. -/
def sysTick (fail : JValue → Bool) (sys : Sys) : Sys × List Ev :=
  if sys.loopSt.running then
    let r := tickAux fail sys.sd.contexts sys.loopSt.errors
    ({ sys with loopSt := ⟨!r.2.1, r.1⟩ }, r.2.2)
  else (sys, [])

/-- Concrete appear payload used by witnesses, shaped like the
protocol's will-appear frame. -/
def appearPayloadA : JValue :=
  .obj (JFields.ofList
    [("context", .str "A"),
     ("action", .str "com.example.showvol"),
     ("payload", .obj (JFields.ofList
        [("settings", .obj (JFields.ofList [("audioDevice", .str "Speakers")])),
         ("coordinates", .obj (JFields.ofList [("column", .num 1), ("row", .num 0)])),
         ("controller", .str "Keypad"),
         ("state", .num 0),
         ("isInMultiAction", .bool false)]))])

/-- State after delivering `appearPayloadA` to the empty store. -/
def sdA : SDState := stateOfE (setSettings appearPayloadA initialSD)

/-- Settings value carried by `appearPayloadA`. -/
def settingsA : JValue := .obj (JFields.ofList [("audioDevice", .str "Speakers")])

/-- Info record carried by `appearPayloadA`. -/
def infoA : CtxInfo :=
  ⟨.obj (JFields.ofList [("column", .num 1), ("row", .num 0)]),
   .str "Keypad", .num 0, .bool false, .str "com.example.showvol"⟩

/-- Disappear payload for context `A`. -/
def disappearPayloadA : JValue := .obj (.fcons "context" (.str "A") .fnil)

/-- System with context `A` active and the loop running. -/
def sysA1 : Sys := ⟨sdA, ⟨true, []⟩⟩

/-- `sysA1` after one polling tick in which the refresh hook for every
context raises: the error counter of `A` becomes 1. -/
def sysA2 : Sys := (sysTick (fun _ => true) sysA1).1

/-- `sysA2` after the disappear handler removes context `A`. -/
def sysA3 : Sys := sysDisappear disappearPayloadA sysA2

theorem countOcc_pos {α : Type} [DecidableEq α] (l : List α) (a : α)
    (h : a ∈ l) : 1 ≤ countOcc l a := by
  induction l with
  | nil => simp at h
  | cons y ys ih =>
      rcases List.mem_cons.mp h with h0 | h0
      · simp [countOcc, h0.symm]
      · have := ih h0
        by_cases hy : y = a <;> simp [countOcc, hy] <;> omega

theorem countOcc_le_of_cons {α : Type} [DecidableEq α] (y : α) (ys : List α) (a : α)
    (h : countOcc (y :: ys) a ≤ 1) : countOcc ys a ≤ 1 := by
  by_cases hy : y = a <;> simp [countOcc, hy] at h <;> omega

theorem tickAux_not_tripped (fail : JValue → Bool) (cs : List JValue) :
    ∀ e, (tickAux fail cs e).2.1 = false →
      ∀ x, Ev.alert x ∉ (tickAux fail cs e).2.2 := by
  induction cs with
  | nil => intro e _ x; simp [tickAux]
  | cons c0 rest ih =>
      intro e htr x
      by_cases hf : fail c0
      · by_cases hth : MAX_ERRORS ≤ (dlookup (bumpErrors e c0) c0).getD 0
        · simp [tickAux, hf, hth] at htr
        · have hrec := ih (bumpErrors e c0) (by simpa [tickAux, hf, hth] using htr) x
          simp [tickAux, hf, hth, hrec]
      · have hrec := ih e (by simpa [tickAux, hf] using htr) x
        simp [tickAux, hf, hrec]

theorem tickAux_tripped (fail : JValue → Bool) (cs : List JValue) :
    ∀ e, (tickAux fail cs e).2.1 = true →
      ∃ pre c, (tickAux fail cs e).2.2 = pre ++ [Ev.alert c] ∧
        (∀ x, Ev.alert x ∉ pre) ∧
        MAX_ERRORS ≤ (dlookup (tickAux fail cs e).1 c).getD 0 := by
  induction cs with
  | nil => intro e htr; simp [tickAux] at htr
  | cons c0 rest ih =>
      intro e htr
      by_cases hf : fail c0
      · by_cases hth : MAX_ERRORS ≤ (dlookup (bumpErrors e c0) c0).getD 0
        · refine ⟨[Ev.hookCall c0], c0, ?_, ?_, ?_⟩ <;> simp [tickAux, hf, hth]
        · obtain ⟨pre, c, h1, h2, h3⟩ :=
            ih (bumpErrors e c0) (by simpa [tickAux, hf, hth] using htr)
          refine ⟨Ev.hookCall c0 :: pre, c, ?_, ?_, ?_⟩
          · simp [tickAux, hf, hth, h1]
          · intro x
            simp [h2 x]
          · simpa [tickAux, hf, hth] using h3
      · obtain ⟨pre, c, h1, h2, h3⟩ := ih e (by simpa [tickAux, hf] using htr)
        refine ⟨Ev.hookCall c0 :: pre, c, ?_, ?_, ?_⟩
        · simp [tickAux, hf, h1]
        · intro x
          simp [h2 x]
        · simpa [tickAux, hf] using h3

theorem runLoop_stopped (fail : Nat → JValue → Bool) (cs : List JValue)
    (fuel t : Nat) (s : LoopSt) (h : s.running = false) :
    runLoop fail cs fuel t s = (s, []) := by
  cases fuel <;> simp [runLoop, h]

theorem dlookup_bump_self (e : List (JValue × Nat)) (c : JValue) :
    dlookup (bumpErrors e c) c = some ((dlookup e c).getD 0 + 1) := by
  simp [bumpErrors]

theorem dlookup_bump_ne (e : List (JValue × Nat)) (c c' : JValue) (h : c' ≠ c) :
    dlookup (bumpErrors e c) c' = dlookup e c' := by
  simp [bumpErrors, dlookup_dinsert_ne _ _ _ _ h]

theorem tickAux_lookup_nofail (fail : JValue → Bool) (cs : List JValue) (c : JValue)
    (hf : fail c = false) :
    ∀ e, dlookup (tickAux fail cs e).1 c = dlookup e c := by
  induction cs with
  | nil => intro e; simp [tickAux]
  | cons c0 rest ih =>
      intro e
      by_cases hf0 : fail c0
      · have hne : c ≠ c0 := by
          rintro rfl
          rw [hf] at hf0
          exact Bool.false_ne_true hf0
        by_cases hth : MAX_ERRORS ≤ (dlookup (bumpErrors e c0) c0).getD 0
        · simp [tickAux, hf0, hth, dlookup_bump_ne e c0 c hne]
        · simp [tickAux, hf0, hth, ih (bumpErrors e c0), dlookup_bump_ne e c0 c hne]
      · simp [tickAux, hf0, ih e]

theorem tickAux_lookup_not_mem (fail : JValue → Bool) (cs : List JValue) (c : JValue)
    (hm : c ∉ cs) :
    ∀ e, dlookup (tickAux fail cs e).1 c = dlookup e c := by
  induction cs with
  | nil => intro e; simp [tickAux]
  | cons c0 rest ih =>
      simp only [List.mem_cons, not_or] at hm
      intro e
      have hne : c ≠ c0 := hm.1
      by_cases hf0 : fail c0
      · by_cases hth : MAX_ERRORS ≤ (dlookup (bumpErrors e c0) c0).getD 0
        · simp [tickAux, hf0, hth, dlookup_bump_ne e c0 c hne]
        · simp [tickAux, hf0, hth, ih hm.2 (bumpErrors e c0), dlookup_bump_ne e c0 c hne]
      · simp [tickAux, hf0, ih hm.2 e]

theorem tickAux_lookup_fail (fail : JValue → Bool) (cs : List JValue) (c : JValue)
    (hf : fail c = true) :
    ∀ e, countOcc cs c ≤ 1 → Ev.hookCall c ∈ (tickAux fail cs e).2.2 →
      dlookup (tickAux fail cs e).1 c = some ((dlookup e c).getD 0 + 1) := by
  induction cs with
  | nil => intro e _ hm; simp [tickAux] at hm
  | cons c0 rest ih =>
      intro e hcount hm
      by_cases hc0 : c0 = c
      · subst hc0
        by_cases hth : MAX_ERRORS ≤ (dlookup e c0).getD 0 + 1
        · simp [tickAux, hf, hth, dlookup_bump_self e c0]
        · have hnotin : c0 ∉ rest := by
            intro hmem
            have h1 := countOcc_pos rest c0 hmem
            simp [countOcc] at hcount
            omega
          simp [tickAux, hf, hth, tickAux_lookup_not_mem fail rest c0 hnotin,
            dlookup_bump_self e c0]
      · have hne : c ≠ c0 := fun hh => hc0 hh.symm
        by_cases hf0 : fail c0
        · by_cases hth : MAX_ERRORS ≤ (dlookup (bumpErrors e c0) c0).getD 0
          · simp [tickAux, hf0, hth, hne, Ne.symm hne] at hm
          · have hm' : Ev.hookCall c ∈ (tickAux fail rest (bumpErrors e c0)).2.2 := by
              simpa [tickAux, hf0, hth, hne] using hm
            have hrec := ih (bumpErrors e c0) (countOcc_le_of_cons c0 rest c hcount) hm'
            rw [dlookup_bump_ne e c0 c hne] at hrec
            simp [tickAux, hf0, hth, hrec]
        · have hm' : Ev.hookCall c ∈ (tickAux fail rest e).2.2 := by
            simpa [tickAux, hf0, hne] using hm
          simp [tickAux, hf0, ih e (countOcc_le_of_cons c0 rest c hcount) hm']

/-- C1: once the consecutive-failure counter of a context reaches the
threshold `MAX_ERRORS = 5` during a polling tick, exactly one show-alert
command is issued for that context and the polling loop stops
permanently: the alert is the final event of the whole run (so no
further refresh-hook invocations occur for any context, whatever the
remaining fuel), the `running` flag ends false, and the tripping
context's counter is at the threshold. -/
theorem circuit_breaker_halts_loop (fail : Nat → JValue → Bool) (cs : List JValue)
    (fuel t : Nat) (s : LoopSt) (c : JValue)
    (h : Ev.alert c ∈ (runLoop fail cs fuel t s).2) :
    (runLoop fail cs fuel t s).1.running = false ∧
    (∃ pre, (runLoop fail cs fuel t s).2 = pre ++ [Ev.alert c] ∧ ∀ x, Ev.alert x ∉ pre) ∧
    MAX_ERRORS ≤ (dlookup (runLoop fail cs fuel t s).1.errors c).getD 0 := by
  induction fuel generalizing t s with
  | zero => simp [runLoop] at h
  | succ fuel ih =>
      by_cases hr : s.running
      · have hstep : runLoop fail cs (fuel + 1) t s =
            ((runLoop fail cs fuel (t + 1) ⟨!(tickAux (fail t) cs s.errors).2.1,
                (tickAux (fail t) cs s.errors).1⟩).1,
             (tickAux (fail t) cs s.errors).2.2 ++
               (runLoop fail cs fuel (t + 1) ⟨!(tickAux (fail t) cs s.errors).2.1,
                (tickAux (fail t) cs s.errors).1⟩).2) := by
          simp [runLoop, hr]
        rw [hstep] at h ⊢
        by_cases htr : (tickAux (fail t) cs s.errors).2.1 = true
        · have hstop := runLoop_stopped fail cs fuel (t + 1)
              ⟨!(tickAux (fail t) cs s.errors).2.1, (tickAux (fail t) cs s.errors).1⟩
              (by simp [htr])
          rw [hstop] at h ⊢
          obtain ⟨pre, c', h1, h2, h3⟩ := tickAux_tripped (fail t) cs s.errors htr
          simp only [List.append_nil] at h ⊢
          rw [h1] at h
          rcases List.mem_append.mp h with hin | hin
          · exact absurd hin (h2 c)
          · have hcc : c = c' := by simpa using hin
            subst hcc
            exact ⟨by simp [htr], ⟨pre, h1, h2⟩, h3⟩
        · have htr' : (tickAux (fail t) cs s.errors).2.1 = false :=
            Bool.not_eq_true _ ▸ (by simpa using htr)
          have hnone := tickAux_not_tripped (fail t) cs s.errors htr'
          have hin : Ev.alert c ∈ (runLoop fail cs fuel (t + 1)
              ⟨!(tickAux (fail t) cs s.errors).2.1, (tickAux (fail t) cs s.errors).1⟩).2 := by
            rcases List.mem_append.mp h with h0 | h0
            · exact absurd h0 (hnone c)
            · exact h0
          obtain ⟨ih1, ⟨pre, ih2, ih3⟩, ih4⟩ := ih (t + 1) _ hin
          refine ⟨ih1, ⟨(tickAux (fail t) cs s.errors).2.2 ++ pre, ?_, ?_⟩, ih4⟩
          · rw [ih2, List.append_assoc]
          · intro x hx
            rcases List.mem_append.mp hx with h0 | h0
            · exact hnone x h0
            · exact ih3 x h0
      · simp [runLoop, hr] at h

/-- Witness for C1: one context whose hook always fails trips the
breaker on the fifth tick; the run with fuel six ends with `running`
false, the alert as final event, and the counter at the threshold. -/
theorem circuit_breaker_halts_loop_witness :
    (runLoop (fun _ _ => true) [JValue.str "X1"] 6 0 ⟨true, []⟩).1.running = false ∧
    (∃ pre, (runLoop (fun _ _ => true) [JValue.str "X1"] 6 0 ⟨true, []⟩).2 =
        pre ++ [Ev.alert (JValue.str "X1")] ∧ ∀ x, Ev.alert x ∉ pre) ∧
    MAX_ERRORS ≤ (dlookup (runLoop (fun _ _ => true) [JValue.str "X1"] 6 0
        ⟨true, []⟩).1.errors (JValue.str "X1")).getD 0 :=
  circuit_breaker_halts_loop (fun _ _ => true) [JValue.str "X1"] 6 0 ⟨true, []⟩
    (JValue.str "X1") (by decide)

/-- C2: during a polling tick, a context whose refresh hook raises while
being polled has its error counter incremented by exactly one
(initialized from 0 when absent), and a context whose refresh hook
succeeds keeps its counter entry exactly as it was — the counter is
never reset on success. -/
theorem error_counter_per_poll (fail : JValue → Bool) (cs : List JValue)
    (e : List (JValue × Nat)) (c : JValue) (hcount : countOcc cs c ≤ 1) :
    (fail c = true → Ev.hookCall c ∈ (tickAux fail cs e).2.2 →
      dlookup (tickAux fail cs e).1 c = some ((dlookup e c).getD 0 + 1)) ∧
    (fail c = false → dlookup (tickAux fail cs e).1 c = dlookup e c) :=
  ⟨fun hf hm => tickAux_lookup_fail fail cs c hf e hcount hm,
   fun hf => tickAux_lookup_nofail fail cs c hf e⟩

/-- Witness for C2: a failing poll of a fresh context sets its counter
to one; a succeeding poll leaves an existing counter entry untouched. -/
theorem error_counter_per_poll_witness :
    dlookup (tickAux (fun _ => true) [JValue.str "X1"] []).1 (JValue.str "X1") =
      some ((dlookup ([] : List (JValue × Nat)) (JValue.str "X1")).getD 0 + 1) ∧
    dlookup (tickAux (fun _ => false) [JValue.str "X1"]
        [(JValue.str "X1", 3)]).1 (JValue.str "X1") =
      dlookup [(JValue.str "X1", 3)] (JValue.str "X1") :=
  ⟨(error_counter_per_poll (fun _ => true) [JValue.str "X1"] [] (JValue.str "X1")
      (by decide)).1 rfl (by decide),
   (error_counter_per_poll (fun _ => false) [JValue.str "X1"]
      [(JValue.str "X1", 3)] (JValue.str "X1") (by decide)).2 rfl⟩

/-- Supporting result: over the protocol-conformant runs of `Reachable`
a context is active exactly when it has both a `ctxSettings` entry and
a `ctxInfo` entry.  (The settings-retrieval path can create a bare
`ctxSettings` entry for an inactive context, but never a `ctxInfo`
entry, so the conjunction stays false and the equivalence survives
there.)  The program also reaches states outside `Reachable` where the
equivalence is broken: see `appear_upsert_not_atomic_bug`. -/
theorem active_iff_settings_and_info (s : SDState) (hr : Reachable s) (c : JValue) :
    c ∈ s.contexts ↔
      ((dlookup s.ctxSettings c).isSome ∧ (dlookup s.ctxInfo c).isSome) := by
  obtain ⟨hn, hi, hs⟩ := reachable_inv s hr
  constructor
  · intro hm
    exact ⟨hs c hm, (hi c).mp hm⟩
  · rintro ⟨h1, h2⟩
    exact (hi c).mpr h2

/-- Instance of the supporting result at a state produced by an appear
event followed by the settings-retrieval path for a second context. -/
theorem active_iff_settings_and_info_witness :
    (JValue.str "A") ∈ (getSettingsStore sdA (JValue.str "Z")).contexts ↔
      ((dlookup (getSettingsStore sdA (JValue.str "Z")).ctxSettings (JValue.str "A")).isSome ∧
       (dlookup (getSettingsStore sdA (JValue.str "Z")).ctxInfo (JValue.str "A")).isSome) :=
  active_iff_settings_and_info (getSettingsStore sdA (JValue.str "Z"))
    (Reachable.settingsRetrieval sdA (JValue.str "Z")
      (Reachable.appear initialSD appearPayloadA Reachable.init (by decide)))
    (JValue.str "A")

/-- Appear frame that carries a context but no `payload` field, as a
malformed host could send it. -/
def malformedAppearFrame : JValue :=
  .obj (JFields.ofList [("event", .str "willAppear"), ("context", .str "A")])

/-- C3: the claimed invariant — active membership iff both a
`ctxSettings` and a `ctxInfo` entry — is broken by a state the program
reaches.  Routing `malformedAppearFrame` through the message handler
makes `setSettings` append the context to the active list
(`src/plugin.py` 183-184) and then raise `KeyError` at
`payload["payload"]` (line 185); the catch-all of `on_message` (lines
143-145) swallows the raise, leaving the context active with neither
entry.  The spec demands atomic creation of all three, so the
non-atomic appear upsert is a code bug, evaluated here at the failing
input. -/
theorem appear_upsert_not_atomic_bug :
    (JValue.str "A") ∈ ((onMessage initialSD (some malformedAppearFrame)).1).contexts ∧
    dlookup ((onMessage initialSD (some malformedAppearFrame)).1).ctxSettings
      (JValue.str "A") = none ∧
    dlookup ((onMessage initialSD (some malformedAppearFrame)).1).ctxInfo
      (JValue.str "A") = none := by
  decide

/-- C8: delivering an appear-style payload upserts its context.  After
`setSettings` succeeds the context occurs exactly once in the active
list — no duplicate is appended when it was already active — and its
settings and info entries are wholly replaced by the payload's fields. -/
theorem appear_upsert (s : SDState) (payload c sv : JValue) (info : CtxInfo)
    (hr : Reachable s) (hwf : appearFields payload = some (c, sv, info)) :
    ∃ s', setSettings payload s = .ok s' ∧
      countOcc s'.contexts c = 1 ∧
      dlookup s'.ctxSettings c = some sv ∧
      dlookup s'.ctxInfo c = some info := by
  obtain ⟨hn, hi, hs⟩ := reachable_inv s hr
  refine ⟨_, setSettings_of_appearFields payload s c sv info hwf, ?_, by simp, by simp⟩
  by_cases hc : c ∈ s.contexts
  · simpa [hc] using countOcc_eq_one s.contexts c hn hc
  · simp [hc, countOcc_append, countOcc_eq_zero s.contexts c hc, countOcc]

/-- Witness for C8: re-delivering `appearPayloadA` to a state where `A`
is already active keeps a single occurrence and replaces both entries. -/
theorem appear_upsert_witness :
    ∃ s', setSettings appearPayloadA sdA = .ok s' ∧
      countOcc s'.contexts (JValue.str "A") = 1 ∧
      dlookup s'.ctxSettings (JValue.str "A") = some settingsA ∧
      dlookup s'.ctxInfo (JValue.str "A") = some infoA :=
  appear_upsert sdA appearPayloadA (JValue.str "A") settingsA infoA
    (Reachable.appear initialSD appearPayloadA Reachable.init (by decide)) (by decide)

/-- C9: in a reachable state, the disappear handler for an active
context removes it from the active list and deletes its settings and
info entries; for a context that is not active, the call raises
`ValueError` (`contexts.index`) before any mutation, leaving the state
unchanged. -/
theorem disappear_removes_or_raises (s : SDState) (c : JValue) (hr : Reachable s) :
    (c ∈ s.contexts →
      ∃ s', removeSettings (.obj (.fcons "context" c .fnil)) s = .ok s' ∧
        c ∉ s'.contexts ∧ dlookup s'.ctxSettings c = none ∧
        dlookup s'.ctxInfo c = none) ∧
    (c ∉ s.contexts →
      removeSettings (.obj (.fcons "context" c .fnil)) s = .error (.valueError, s)) := by
  obtain ⟨hn, hi, hs⟩ := reachable_inv s hr
  have hctx : jget (.obj (.fcons "context" c .fnil)) "context" = .ok c := by
    simp [jget, JFields.lookup]
  constructor
  · intro hm
    obtain ⟨v, hv⟩ := Option.isSome_iff_exists.mp (hs c hm)
    obtain ⟨w, hw⟩ := Option.isSome_iff_exists.mp ((hi c).mp hm)
    refine ⟨⟨eraseFirst s.contexts c, derase s.ctxSettings c, derase s.ctxInfo c⟩,
      ?_, not_mem_eraseFirst_self s.contexts c hn, by simp, by simp⟩
    simp [removeSettings, hctx, hm, hv, hw]
  · intro hm
    simp [removeSettings, hctx, hm]

/-- Witness for C9: removing the active context `A` succeeds and purges
it; removing the absent context `B` from the empty store raises and
leaves the store unchanged. -/
theorem disappear_removes_or_raises_witness :
    (∃ s', removeSettings (.obj (.fcons "context" (JValue.str "A") .fnil)) sdA = .ok s' ∧
      (JValue.str "A") ∉ s'.contexts ∧
      dlookup s'.ctxSettings (JValue.str "A") = none ∧
      dlookup s'.ctxInfo (JValue.str "A") = none) ∧
    removeSettings (.obj (.fcons "context" (JValue.str "B") .fnil)) initialSD =
      .error (.valueError, initialSD) :=
  ⟨(disappear_removes_or_raises sdA (JValue.str "A")
      (Reachable.appear initialSD appearPayloadA Reachable.init (by decide))).1 (by decide),
   (disappear_removes_or_raises initialSD (JValue.str "B") Reachable.init).2 (by decide)⟩

/-- C4 counterexample: after context `A` fails one poll (counter 1) and
is then removed by the disappear handler, the error map still carries
the entry for `A` even though `A` is no longer active — the counter does
outlive context removal, contrary to the claim. -/
theorem error_counter_outlives_removal_cex :
    (JValue.str "A") ∉ sysA3.sd.contexts ∧
    dlookup sysA3.loopSt.errors (JValue.str "A") = some 1 := by
  decide

/-- C4 (amended): `removeSettings` reads and writes only the instance
store, never the error map, so an existing counter entry persists
unchanged through the disappear handler; later ticks that do not poll
the removed context leave it untouched as well. -/
theorem error_counter_outlives_removal (sys : Sys) (payload c : JValue) (n : Nat)
    (h : dlookup sys.loopSt.errors c = some n) :
    dlookup (sysDisappear payload sys).loopSt.errors c = some n ∧
    (∀ fail : JValue → Bool, fail c = false →
      dlookup ((sysTick fail (sysDisappear payload sys)).1).loopSt.errors c = some n) := by
  refine ⟨h, ?_⟩
  intro fail hf
  by_cases hr : sys.loopSt.running
  · simp [sysTick, sysDisappear, hr, tickAux_lookup_nofail fail _ c hf, h]
  · simp [sysTick, sysDisappear, hr, h]

/-- Witness for C4 (amended): the concrete run of the counterexample. -/
theorem error_counter_outlives_removal_witness :
    dlookup (sysDisappear disappearPayloadA sysA2).loopSt.errors (JValue.str "A") = some 1 :=
  (error_counter_outlives_removal sysA2 disappearPayloadA (JValue.str "A") 1 (by decide)).1

/-- C5 counterexample: the router resolves keys with `getattr` over the
plugin object, not only against the fixed table of recognized event
handlers — the frame event `_loop` resolves to the polling hook
`on_loop` and is invoked with the payload, although `on_loop` is no
recognized event handler. -/
theorem router_fixed_table_cex :
    resolveEvent "_loop" = .invokeWithPayload "on_loop" ∧
    "on_loop" ∉ recognizedEventHandlers := by
  decide

/-- C5 (amended): the router computes `on` + uppercased-first-letter and
resolves it against the plugin object's attributes.  Every key in the
recognized-handler table behaves as the claim states (the system-wakeup
event is invoked with zero arguments, every other recognized event with
the parsed payload); a key outside the attribute set only logs; and
every invocation targets the computed key, which must be an attribute —
including the non-handler attribute `on_loop`. -/
theorem router_resolution (e : String) :
    (methodNameFor e ∈ recognizedEventHandlers →
      resolveEvent e = (if e = "systemDidWakeUp" then
        RouteAction.invokeNoArg (methodNameFor e)
      else RouteAction.invokeWithPayload (methodNameFor e))) ∧
    (methodNameFor e ∉ sdPluginAttrs → resolveEvent e = .logMiss (methodNameFor e)) ∧
    (∀ m, resolveEvent e = .invokeNoArg m ∨ resolveEvent e = .invokeWithPayload m →
      m = methodNameFor e ∧ m ∈ sdPluginAttrs) := by
  have hsub : ∀ m, m ∈ recognizedEventHandlers → m ∈ sdPluginAttrs := by decide
  refine ⟨?_, ?_, ?_⟩
  · intro h
    simp [resolveEvent, hsub _ h]
  · intro h
    simp [resolveEvent, h]
  · intro m hm
    by_cases ha : methodNameFor e ∈ sdPluginAttrs
    · by_cases hw : e = "systemDidWakeUp"
      · subst hw
        simp [resolveEvent, ha] at hm
        exact ⟨hm.symm, hm ▸ ha⟩
      · simp [resolveEvent, ha, hw] at hm
        exact ⟨hm.symm, hm ▸ ha⟩
    · simp [resolveEvent, ha] at hm

/-- Witness for C5 (amended) at three concrete events: a payload-taking
handler, the zero-argument wakeup handler, and an unimplemented key. -/
theorem router_resolution_witness :
    resolveEvent "keyDown" = .invokeWithPayload "onKeyDown" ∧
    resolveEvent "systemDidWakeUp" = .invokeNoArg "onSystemDidWakeUp" ∧
    resolveEvent "fooBar" = .logMiss "onFooBar" := by
  refine ⟨?_, ?_, ?_⟩
  · rw [(router_resolution "keyDown").1 (by decide)]
    decide
  · rw [(router_resolution "systemDidWakeUp").1 (by decide)]
    decide
  · rw [(router_resolution "fooBar").2.1 (by decide)]
    decide

theorem invoked_dispatchTo (s : SDState) (m : String) (parsed : JValue) :
    invokedOutcome (dispatchTo s m parsed).2 = true := by
  unfold dispatchTo
  split
  · rcases h : setSettings parsed s with ⟨e1, s1⟩ | s1 <;> simp [h, invokedOutcome]
  · split
    · rcases h : removeSettings parsed s with ⟨e1, s1⟩ | s1 <;> simp [h, invokedOutcome]
    · simp [invokedOutcome]

/-- C6: `on_message` never raises — the catch-all `except` of
`src/plugin.py` 143-145 is embedded as the total function `onMessage`,
whose `badEvent`, `noHandler` and `handlerRaised` outcomes are all
ordinary returns — and whenever no handler is invoked (parse failure,
non-mapping frame, missing or empty or unrecognized event name) the
instance store is returned unchanged. -/
theorem on_message_safe (s : SDState) (frame : Option JValue) :
    (invokedOutcome (onMessage s frame).2 = false → (onMessage s frame).1 = s) ∧
    (frame = none → invokedOutcome (onMessage s frame).2 = false) ∧
    (∀ parsed, frame = some parsed → (∀ fs, parsed ≠ .obj fs) →
      invokedOutcome (onMessage s frame).2 = false) ∧
    (∀ fs, frame = some (.obj fs) → JFields.lookup fs "event" = none →
      invokedOutcome (onMessage s frame).2 = false) ∧
    (∀ fs e, frame = some (.obj fs) → JFields.lookup fs "event" = some (.str e) →
      methodNameFor e ∉ sdPluginAttrs →
      invokedOutcome (onMessage s frame).2 = false) := by
  refine ⟨?_, ?_, ?_, ?_, ?_⟩
  · intro h
    rcases frame with _ | parsed
    · rfl
    rcases parsed with _ | b | n | st | fields
    · rfl
    · rfl
    · rfl
    · rfl
    rcases hev : JFields.lookup fields "event" with _ | v
    · simp [onMessage, hev]
    rcases v with _ | b | n | est | fs2
    · simp [onMessage, hev]
    · simp [onMessage, hev]
    · simp [onMessage, hev]
    · by_cases he : est = ""
      · simp [onMessage, hev, he]
      rcases hre : resolveEvent est with m | m | m
      · simp [onMessage, hev, he, hre, invokedOutcome] at h
      · simp [onMessage, hev, he, hre, invoked_dispatchTo] at h
      · simp [onMessage, hev, he, hre]
    · simp [onMessage, hev]
  · rintro rfl
    rfl
  · rintro parsed rfl hno
    rcases parsed with _ | b | n | st | fields
    · rfl
    · rfl
    · rfl
    · rfl
    · exact absurd rfl (hno fields)
  · rintro fs rfl hev
    simp [onMessage, hev, invokedOutcome]
  · rintro fs e rfl hev hm
    by_cases he : e = ""
    · simp [onMessage, hev, he, invokedOutcome]
    · have hre : resolveEvent e = .logMiss (methodNameFor e) := by
        simp [resolveEvent, hm]
      simp [onMessage, hev, he, hre, invokedOutcome]

/-- Witness for C6: a parse failure and an unrecognized event name both
leave the store unchanged without an invocation. -/
theorem on_message_safe_witness :
    (onMessage initialSD none).1 = initialSD ∧
    invokedOutcome (onMessage initialSD
      (some (JValue.obj (.fcons "event" (JValue.str "fooBar") .fnil)))).2 = false :=
  ⟨(on_message_safe initialSD none).1 (by decide),
   (on_message_safe initialSD
      (some (JValue.obj (.fcons "event" (JValue.str "fooBar") .fnil)))).2.2.2.2
     (.fcons "event" (JValue.str "fooBar") .fnil) "fooBar" rfl (by decide) (by decide)⟩

/-- C7: the set-state builder validates its integer argument before
anything is sent: a value outside 0 and 1 raises `ValueError` with no
message; 0 or 1 produces exactly one `setState` message carrying it. -/
theorem set_state_validates (context : JValue) (stateIdx : Int) :
    ((stateIdx ≠ 0 ∧ stateIdx ≠ 1) → SetState context stateIdx = .error .valueError) ∧
    (stateIdx = 0 ∨ stateIdx = 1 →
      SetState context stateIdx = .ok [Cmd.setState context stateIdx]) := by
  constructor
  · rintro ⟨h0, h1⟩
    have hlt : stateIdx < 0 ∨ stateIdx > 1 := by omega
    simp [SetState, hlt]
  · rintro (rfl | rfl) <;> simp [SetState]

/-- Witness for C7 at the values 7 and 1. -/
theorem set_state_validates_witness :
    SetState (JValue.str "c") 7 = .error .valueError ∧
    SetState (JValue.str "c") 1 = .ok [Cmd.setState (JValue.str "c") 1] :=
  ⟨(set_state_validates (JValue.str "c") 7).1 (by decide),
   (set_state_validates (JValue.str "c") 1).2 (Or.inr rfl)⟩

/-- C10: the domain refresh hook returns normally, sends nothing and
changes nothing for a context that lacks a settings entry or an info
entry — the `if not settings or not info: return` guard, which lets the
polling loop tolerate contexts removed between listing and refresh. -/
theorem on_loop_skips_unknown_context (p : PulseState) (context : JValue)
    (h : dlookup p.sd.ctxSettings context = none ∨
         dlookup p.sd.ctxInfo context = none) :
    on_loop p context = .ok (p, []) := by
  rcases h with h | h
  · simp [on_loop, h]
  · rcases h2 : dlookup p.sd.ctxSettings context with _ | sv
    · simp [on_loop, h2]
    · simp [on_loop, h2, h]

/-- Witness for C10 on the empty plugin state. -/
theorem on_loop_skips_unknown_context_witness :
    on_loop ⟨initialSD, [], [], []⟩ (JValue.str "A") =
      .ok (⟨initialSD, [], [], []⟩, []) :=
  on_loop_skips_unknown_context ⟨initialSD, [], [], []⟩ (JValue.str "A")
    (Or.inl (by decide))

end PulseMixer
